import Mathlib

/-!
Verification of the MongoDB hash-comparison tool (`mongodb_hash_compare.py`).

The data model and operations below are a shallow embedding of the Python
source: inventories (Python dicts keyed by database name) become association
lists, the per-database `dbHash` result becomes `DatabaseRecord`, the rows
built by `prepare_comparison_data` become `ComparisonRow`, and the summary /
column-width computations of `create_excel_report` become the functions in the
renderer section.  Integer-valued spreadsheet cells are stored as their
decimal rendering, matching the `str()` applied to them by the width loop.
-/

/-- A per-database `dbHash` result as extracted by `run_db_hash`: host string,
per-collection digest mapping, aggregate `md5` digest, and elapsed time. -/
structure DatabaseRecord where
  host : String
  collections : List (String × String)
  md5 : String
  timeMillis : Nat
deriving DecidableEq

/-- A cluster inventory: mapping from database name to its record
(`source_hashes` / `dest_hashes` in the source). -/
abbrev Inventory := List (String × DatabaseRecord)

/-- Dictionary lookup (`d.get(k)`), first match wins. -/
def lookupKey {α : Type} (k : String) : List (String × α) → Option α
  | [] => none
  | (k₀, v) :: rest => if k₀ = k then some v else lookupKey k rest

/-- The keys of an association list (`d.keys()`). -/
def keysList {α : Type} (l : List (String × α)) : List String :=
  l.map Prod.fst

/-- `sorted(set(a) | set(b))`: the sorted, duplicate-free union of two key
lists. -/
def sortedUnion (a b : List String) : List String :=
  List.insertionSort (· ≤ ·) ((a ++ b).dedup)

/-- One output row of `prepare_comparison_data`.  `rowType` embeds the
`'Type'` field of the Python dict (`Type` is reserved in Lean).  The two
time fields hold the decimal rendering of the stored integer for Database
rows and the empty string for Collection rows. -/
structure ComparisonRow where
  rowType : String
  Database : String
  Collection : String
  Source_Hash : String
  Destination_Hash : String
  Match : String
  Source_Host : String
  Dest_Host : String
  Source_Time_ms : String
  Dest_Time_ms : String
deriving DecidableEq

/-- The Database-level row built for database `d` (source lines 194-206). -/
def mkDbRow (S D : Inventory) (d : String) : ComparisonRow :=
  let si := lookupKey d S
  let di := lookupKey d D
  { rowType := "Database"
    Database := d
    Collection := ""
    Source_Hash := (si.map DatabaseRecord.md5).getD "MISSING"
    Destination_Hash := (di.map DatabaseRecord.md5).getD "MISSING"
    Match :=
      match si, di with
      | some rs, some rd => if rs.md5 = rd.md5 then "MATCH" else "MISMATCH"
      | _, _ => "MISSING DB"
    Source_Host := (si.map DatabaseRecord.host).getD "N/A"
    Dest_Host := (di.map DatabaseRecord.host).getD "N/A"
    Source_Time_ms := toString ((si.map DatabaseRecord.timeMillis).getD 0)
    Dest_Time_ms := toString ((di.map DatabaseRecord.timeMillis).getD 0) }

/-- `source_info.get('collections', {})`: the collection-digest mapping of
database `d` in inventory `inv`, empty when `d` is absent. -/
def collectionsOf (inv : Inventory) (d : String) : List (String × String) :=
  ((lookupKey d inv).map DatabaseRecord.collections).getD []

/-- `sorted(set(source_collections) | set(dest_collections))` for database
`d` (source line 212-214). -/
def collNames (S D : Inventory) (d : String) : List String :=
  sortedUnion (keysList (collectionsOf S d)) (keysList (collectionsOf D d))

/-- The Collection-level row built for collection `c` of database `d`
(source lines 215-230).  Absence of a digest is represented by the literal
default `'MISSING'` exactly as in the source. -/
def mkCollRow (S D : Inventory) (d c : String) : ComparisonRow :=
  let sh := (lookupKey c (collectionsOf S d)).getD "MISSING"
  let dh := (lookupKey c (collectionsOf D d)).getD "MISSING"
  { rowType := "Collection"
    Database := d
    Collection := c
    Source_Hash := sh
    Destination_Hash := dh
    Match :=
      if sh = "MISSING" ∨ dh = "MISSING" then "MISSING COLLECTION"
      else if sh = dh then "MATCH" else "MISMATCH"
    Source_Host := ((lookupKey d S).map DatabaseRecord.host).getD "N/A"
    Dest_Host := ((lookupKey d D).map DatabaseRecord.host).getD "N/A"
    Source_Time_ms := ""
    Dest_Time_ms := "" }

/-- `sorted(set(source_hashes.keys()) | set(dest_hashes.keys()))`. -/
def allDbNames (S D : Inventory) : List String :=
  sortedUnion (keysList S) (keysList D)

/-- The rows appended for one database: its Database row immediately
followed by its Collection rows. -/
def rowsFor (S D : Inventory) (d : String) : List ComparisonRow :=
  mkDbRow S D d :: (collNames S D d).map (mkCollRow S D d)

/-- `prepare_comparison_data` (source lines 173-233), embedded as the same
append-driven double loop over the sorted database and collection names. -/
def prepare_comparison_data (S D : Inventory) : List ComparisonRow :=
  (allDbNames S D).foldl
    (fun acc d =>
      (collNames S D d).foldl (fun acc₂ c => acc₂ ++ [mkCollRow S D d c])
        (acc ++ [mkDbRow S D d]))
    []

/-- `p` occurs at the start of the character list. -/
def startsWithSeg : List Char → List Char → Bool
  | [], _ => true
  | _ :: _, [] => false
  | p :: ps, c :: cs => decide (p = c) && startsWithSeg ps cs

/-- `p` occurs as a contiguous segment of the character list. -/
def hasSeg (p : List Char) : List Char → Bool
  | [] => startsWithSeg p []
  | c :: cs => startsWithSeg p (c :: cs) || hasSeg p cs

/-- Python substring containment `pat in s`. -/
def strContains (s pat : String) : Bool :=
  hasSeg pat.toList s.toList

/-- `len([row for row in comparison_data if row['Type'] == 'Database'])`. -/
def total_databases (rows : List ComparisonRow) : Nat :=
  (rows.filter (fun r => r.rowType == "Database")).length

/-- Collection-row count of the summary (source line 300). -/
def total_collections (rows : List ComparisonRow) : Nat :=
  (rows.filter (fun r => r.rowType == "Collection")).length

/-- Database rows whose Match contains `'MISMATCH'` (source line 301). -/
def db_mismatches (rows : List ComparisonRow) : Nat :=
  (rows.filter (fun r => r.rowType == "Database" && strContains r.Match "MISMATCH")).length

/-- Collection rows whose Match contains `'MISMATCH'` (source line 302). -/
def coll_mismatches (rows : List ComparisonRow) : Nat :=
  (rows.filter (fun r => r.rowType == "Collection" && strContains r.Match "MISMATCH")).length

/-- Database rows whose Match contains `'MISSING'` (source line 303). -/
def missing_dbs (rows : List ComparisonRow) : Nat :=
  (rows.filter (fun r => r.rowType == "Database" && strContains r.Match "MISSING")).length

/-- Collection rows whose Match contains `'MISSING'` (source line 304). -/
def missing_colls (rows : List ComparisonRow) : Nat :=
  (rows.filter (fun r => r.rowType == "Collection" && strContains r.Match "MISSING")).length

/-- The `'Overall Status'` cell of the Summary sheet (source line 318). -/
def overallStatus (rows : List ComparisonRow) : String :=
  if db_mismatches rows + coll_mismatches rows + missing_dbs rows + missing_colls rows = 0
  then "PASS" else "FAIL"

/-- The ten columns of the "Hash Comparison" sheet, each as header cell
followed by the data cells in row order. -/
def mainColumns (rows : List ComparisonRow) : List (List String) :=
  [ "Type" :: rows.map ComparisonRow.rowType
  , "Database" :: rows.map ComparisonRow.Database
  , "Collection" :: rows.map ComparisonRow.Collection
  , "Source_Hash" :: rows.map ComparisonRow.Source_Hash
  , "Destination_Hash" :: rows.map ComparisonRow.Destination_Hash
  , "Match" :: rows.map ComparisonRow.Match
  , "Source_Host" :: rows.map ComparisonRow.Source_Host
  , "Dest_Host" :: rows.map ComparisonRow.Dest_Host
  , "Source_Time_ms" :: rows.map ComparisonRow.Source_Time_ms
  , "Dest_Time_ms" :: rows.map ComparisonRow.Dest_Time_ms ]

/-- The running-maximum length loop of the width computation
(`max_length = 0; for cell in column: ...`). -/
def maxCellLen (cells : List String) : Nat :=
  cells.foldl (fun m s => Nat.max m s.length) 0

/-- Column width on the "Hash Comparison" sheet:
`min(max_length + 2, 50)` (source line 292). -/
def mainColWidth (cells : List String) : Nat :=
  Nat.min (maxCellLen cells + 2) 50

/-- Column width on the "Summary" sheet: `max_length + 2`, with no cap
(source line 340). -/
def summaryColWidth (cells : List String) : Nat :=
  maxCellLen cells + 2

/-- First column of the `summary_data` block (source lines 306-319). -/
def summaryColA : List String :=
  [ "MongoDB Hash Comparison Summary"
  , "Generated on"
  , ""
  , "Total Databases Compared"
  , "Database Hash Mismatches"
  , "Missing Databases"
  , ""
  , "Total Collections Compared"
  , "Collection Hash Mismatches"
  , "Missing Collections"
  , ""
  , "Overall Status" ]

/-- Second column of the `summary_data` block, with every cell rendered the
way the width loop sees it (`str(cell.value)`); `genTime` is the
`'Generated on'` timestamp string. -/
def summaryColB (genTime : String) (rows : List ComparisonRow) : List String :=
  [ ""
  , genTime
  , ""
  , toString (total_databases rows)
  , toString (db_mismatches rows)
  , toString (missing_dbs rows)
  , ""
  , toString (total_collections rows)
  , toString (coll_mismatches rows)
  , toString (missing_colls rows)
  , ""
  , overallStatus rows ]

/-- Collector: one side of `collect_all_hashes` (source lines 154-166).
`hashOf d` is the outcome of `run_db_hash` on database `d`: `none` embeds
the exception-swallowing `return {}` path, and only truthy results are
stored in the inventory. -/
def collect_side (hashOf : String → Option DatabaseRecord)
    (dbs : List String) : Inventory :=
  dbs.foldl
    (fun acc d =>
      match hashOf d with
      | some r => acc ++ [(d, r)]
      | none => acc)
    []

/-- Orchestrator: `run_comparison` (source lines 361-403) with its I/O
abstracted: `connectOk` is the outcome of `connect_to_clusters`, `S`/`D`
the collected inventories, and `writeOk` whether `create_excel_report`
managed to save the workbook (its exception is caught and turns the result
into `False`). -/
def run_comparison (connectOk : Bool) (S D : Inventory) (writeOk : Bool) : Bool :=
  if connectOk = false then false
  else if S = [] ∧ D = [] then false
  else writeOk

/-- `main` (source lines 454-461): exit code 0 on `True`, 1 on `False`. -/
def exitCode (success : Bool) : Nat :=
  if success then 0 else 1

/-- The Collection-level rows that a row sequence carries for database `d`. -/
def collRowsFor (rows : List ComparisonRow) (d : String) : List ComparisonRow :=
  rows.filter (fun r => r.rowType == "Collection" && r.Database == d)

/-- The database names carried by the Database-level rows of a sequence. -/
def dbNamesOf (rows : List ComparisonRow) : List String :=
  (rows.filter (fun r => r.rowType == "Database")).map ComparisonRow.Database

/-- `prepare_comparison_data` with the ambient dictionaries
(`source_hashes`, `dest_hashes`) and the accumulating `comparison_data`
threaded through the loop state explicitly: each iteration reads the two
inventories from the state, appends rows, and passes the inventories on. -/
def prepare_state (S D : Inventory) : Inventory × Inventory × List ComparisonRow :=
  (allDbNames S D).foldl
    (fun st d =>
      (st.1, st.2.1,
        (collNames st.1 st.2.1 d).foldl
          (fun acc c => acc ++ [mkCollRow st.1 st.2.1 d c])
          (st.2.2 ++ [mkDbRow st.1 st.2.1 d])))
    (S, D, [])

/-- Fixture records and inventories for concrete witnesses and
counterexamples. -/
def recA1 : DatabaseRecord := ⟨"hostA", [("c1", "d1")], "aggA", 3⟩

/-- Second fixture record. -/
def recB1 : DatabaseRecord := ⟨"hostB", [("c2", "d2")], "aggB", 4⟩

/-- A two-database inventory. -/
def invAB : Inventory := [("alpha", recA1), ("beta", recB1)]

/-- The same mapping as `invAB` stored in the opposite order. -/
def invBA : Inventory := [("beta", recB1), ("alpha", recA1)]

/-- A one-database source inventory with one collection, used by C1. -/
def invOne : Inventory := [("db", ⟨"h1", [("c", "h1c")], "X", 5⟩)]

/-- Claim C1 as stated: for a database present in exactly one inventory,
the reconciliation output carries zero Collection-level rows. -/
def oneSidedNoCollRowsClaim : Prop :=
  ∀ (S D : Inventory) (d : String),
    ((d ∈ keysList S ∧ d ∉ keysList D) ∨ (d ∉ keysList S ∧ d ∈ keysList D)) →
    collRowsFor (prepare_comparison_data S D) d = []

/-- Source inventory with aggregate digest X and no collections. -/
def invX : Inventory := [("a", ⟨"h1", [], "X", 1⟩)]

/-- Destination inventory with aggregate digest Y and no collections. -/
def invY : Inventory := [("a", ⟨"h2", [], "Y", 1⟩)]

/-- Claim C2 as stated: a zero exit code implies hash collection succeeded on
at least one side and the report's overallStatus is PASS. -/
def exitZeroOnlyOnPassClaim : Prop :=
  ∀ (connectOk : Bool) (S D : Inventory) (writeOk : Bool),
    exitCode (run_comparison connectOk S D writeOk) = 0 →
    ((S ≠ [] ∨ D ≠ []) ∧ overallStatus (prepare_comparison_data S D) = "PASS")

/-- The digest the comparison reads for row `r` from inventory `inv`: the
collection digest for Collection rows, the aggregate md5 for Database rows;
`none` when the database record / collection key is absent. -/
def digestOf (inv : Inventory) (r : ComparisonRow) : Option String :=
  if r.rowType = "Collection" then lookupKey r.Collection (collectionsOf inv r.Database)
  else (lookupKey r.Database inv).map DatabaseRecord.md5

/-- Classification correctness (spec §8) at one row: MATCH iff both digests
present and string-equal, MISMATCH iff both present and unequal, MISSING DB /
MISSING COLLECTION iff at least one digest is absent by key. -/
def classificationCorrectAt (S D : Inventory) (r : ComparisonRow) : Prop :=
  (r.Match = "MATCH" ↔ ∃ a b, digestOf S r = some a ∧ digestOf D r = some b ∧ a = b)
  ∧ (r.Match = "MISMATCH" ↔ ∃ a b, digestOf S r = some a ∧ digestOf D r = some b ∧ a ≠ b)
  ∧ ((r.Match = "MISSING DB" ∨ r.Match = "MISSING COLLECTION")
      ↔ (digestOf S r = none ∨ digestOf D r = none))

/-- Claim C3 as stated: every output row is classified correctly, with
absence read as key absence. -/
def classificationClaim : Prop :=
  ∀ (S D : Inventory), ∀ r ∈ prepare_comparison_data S D,
    classificationCorrectAt S D r

/-- No stored collection digest equals the sentinel string MISSING. -/
def noSentinelDigest (inv : Inventory) : Prop :=
  ∀ p ∈ inv, ∀ q ∈ p.2.collections, q.2 ≠ "MISSING"

/-- Source inventory whose collection digest is literally MISSING. -/
def invMS : Inventory := [("db", ⟨"h1", [("c", "MISSING")], "X", 1⟩)]

/-- Destination inventory whose collection digest is literally MISSING. -/
def invMD : Inventory := [("db", ⟨"h2", [("c", "MISSING")], "X", 1⟩)]

/-- The spec's column-sizing formula: longest literal cell length plus the
fixed padding 2, capped at 50. -/
def specColWidth (cells : List String) : Nat :=
  Nat.min ((cells.map String.length).foldr Nat.max 0 + 2) 50

/-- Claim C7 as stated: every column of every view (primary and Summary)
is assigned the capped width. -/
def cappedWidthClaim : Prop :=
  ∀ (rows : List ComparisonRow) (genTime : String),
    (∀ col ∈ mainColumns rows, mainColWidth col = specColWidth col)
    ∧ summaryColWidth summaryColA = specColWidth summaryColA
    ∧ summaryColWidth (summaryColB genTime rows)
        = specColWidth (summaryColB genTime rows)

/-- A well-formed matching Collection row, used to build a huge report. -/
def fillerRow : ComparisonRow :=
  ⟨"Collection", "db", "c", "a1", "a1", "MATCH", "h1", "h2", "", ""⟩

theorem mem_sortedUnion {a b : List String} {x : String} :
    x ∈ sortedUnion a b ↔ x ∈ a ∨ x ∈ b := by
  unfold sortedUnion
  rw [List.mem_insertionSort, List.mem_dedup, List.mem_append]

theorem nodup_sortedUnion (a b : List String) : (sortedUnion a b).Nodup :=
  (List.perm_insertionSort _ _).nodup_iff.mpr (List.nodup_dedup _)

theorem sorted_le_sortedUnion (a b : List String) :
    List.Sorted (· ≤ ·) (sortedUnion a b) :=
  List.sorted_insertionSort _ _

theorem sorted_lt_sortedUnion (a b : List String) :
    List.Sorted (· < ·) (sortedUnion a b) := by
  have hs := sorted_le_sortedUnion a b
  have hn := nodup_sortedUnion a b
  exact (hs.and hn).imp (fun h => lt_of_le_of_ne h.1 h.2)

theorem eq_of_sorted_lt_of_mem_iff {l₁ l₂ : List String}
    (h₁ : List.Sorted (· < ·) l₁) (h₂ : List.Sorted (· < ·) l₂)
    (hm : ∀ x, x ∈ l₁ ↔ x ∈ l₂) : l₁ = l₂ := by
  haveI : IsAntisymm String (· < ·) :=
    ⟨fun a b h h₀ => absurd (lt_trans h h₀) (lt_irrefl a)⟩
  have hp : l₁.Perm l₂ :=
    (List.perm_ext_iff_of_nodup h₁.nodup h₂.nodup).mpr hm
  exact List.eq_of_perm_of_sorted hp h₁ h₂

theorem lookupKey_isSome_iff {α : Type} (k : String) :
    ∀ l : List (String × α), (lookupKey k l).isSome = true ↔ k ∈ keysList l := by
  intro l
  induction l with
  | nil => simp [lookupKey, keysList]
  | cons p rest ih =>
    obtain ⟨k₀, v⟩ := p
    by_cases h : k₀ = k
    · subst h; simp [lookupKey, keysList]
    · simp only [lookupKey, if_neg h, keysList, List.map_cons, List.mem_cons]
      rw [ih]
      constructor
      · exact fun hk => Or.inr hk
      · rintro (hk | hk)
        · exact absurd hk.symm h
        · exact hk

theorem lookupKey_eq_some_mem {α : Type} {k : String} {v : α} :
    ∀ {l : List (String × α)}, lookupKey k l = some v → (k, v) ∈ l := by
  intro l
  induction l with
  | nil => simp [lookupKey]
  | cons p rest ih =>
    obtain ⟨k₀, w⟩ := p
    by_cases h : k₀ = k
    · subst h
      intro hl
      simp only [lookupKey, if_pos, Option.some.injEq] at hl
      exact hl ▸ List.mem_cons_self _ _
    · simp only [lookupKey, if_neg h]
      exact fun hl => List.mem_cons_of_mem _ (ih hl)

theorem foldl_append_singleton {α β : Type} (f : α → β) :
    ∀ (l : List α) (init : List β),
      l.foldl (fun acc x => acc ++ [f x]) init = init ++ l.map f := by
  intro l
  induction l with
  | nil => intro init; simp
  | cons x xs ih =>
    intro init
    simp only [List.foldl_cons, List.map_cons]
    rw [ih]
    simp

theorem prepare_eq_bind (S D : Inventory) :
    prepare_comparison_data S D = (allDbNames S D).flatMap (rowsFor S D) := by
  unfold prepare_comparison_data
  have main : ∀ (l : List String) (init : List ComparisonRow),
      l.foldl
        (fun acc d =>
          (collNames S D d).foldl (fun acc₂ c => acc₂ ++ [mkCollRow S D d c])
            (acc ++ [mkDbRow S D d]))
        init = init ++ l.flatMap (rowsFor S D) := by
    intro l
    induction l with
    | nil => intro init; simp
    | cons d ds ih =>
      intro init
      simp only [List.foldl_cons, List.flatMap_cons]
      rw [foldl_append_singleton, ih]
      simp [rowsFor, List.append_assoc]
  simpa using main (allDbNames S D) []

theorem mem_prepare_iff {S D : Inventory} {r : ComparisonRow} :
    r ∈ prepare_comparison_data S D ↔
      ∃ d, d ∈ allDbNames S D ∧
        (r = mkDbRow S D d ∨ ∃ c, c ∈ collNames S D d ∧ r = mkCollRow S D d c) := by
  rw [prepare_eq_bind, List.mem_flatMap]
  apply exists_congr
  intro d
  apply and_congr_right
  intro _
  simp only [rowsFor, List.mem_cons, List.mem_map]
  constructor
  · rintro (h | ⟨c, hc, hr⟩)
    · exact Or.inl h
    · exact Or.inr ⟨c, hc, hr.symm⟩
  · rintro (h | ⟨c, hc, hr⟩)
    · exact Or.inl h
    · exact Or.inr ⟨c, hc, hr.symm⟩

theorem filterFlatMap {α β : Type} (l : List α) (f : α → List β) (p : β → Bool) :
    (l.flatMap f).filter p = l.flatMap (fun x => (f x).filter p) := by
  induction l with
  | nil => rfl
  | cons x xs ih => simp only [List.flatMap_cons, List.filter_append, ih]

theorem flatMapSingle {α β : Type} (g : α → List β) (d : α) :
    ∀ l : List α, l.Nodup → d ∈ l → (∀ x ∈ l, x ≠ d → g x = []) →
      l.flatMap g = g d := by
  intro l
  induction l with
  | nil => intro _ h; exact absurd h (List.not_mem_nil d)
  | cons x xs ih =>
    intro hnd hmem hz
    rw [List.flatMap_cons]
    rcases List.mem_cons.mp hmem with hx | hx
    · subst hx
      have hxs : xs.flatMap g = [] := by
        apply List.flatMap_eq_nil_iff.mpr
        intro y hy
        exact hz y (List.mem_cons_of_mem _ hy)
          (fun he => (List.nodup_cons.mp hnd).1 (he ▸ hy))
      rw [hxs, List.append_nil]
    · have hx0 : x ≠ d := fun he => (List.nodup_cons.mp hnd).1 (he ▸ hx)
      rw [hz x (List.mem_cons_self _ _) hx0, List.nil_append]
      exact ih (List.nodup_cons.mp hnd).2 hx
        (fun y hy => hz y (List.mem_cons_of_mem _ hy))

theorem dbFilter_rowsFor (S D : Inventory) (d : String) :
    (rowsFor S D d).filter (fun r => r.rowType == "Database") = [mkDbRow S D d] := by
  simp only [rowsFor, List.filter_cons]
  have h1 : ((mkDbRow S D d).rowType == "Database") = true := by rfl
  rw [if_pos h1]
  have h2 : ((collNames S D d).map (mkCollRow S D d)).filter
      (fun r => r.rowType == "Database") = [] := by
    apply List.filter_eq_nil_iff.mpr
    intro r hr
    rcases List.mem_map.mp hr with ⟨c, _, hc⟩
    subst hc
    simp [mkCollRow]
  rw [h2]

theorem collFilter_rowsFor_self (S D : Inventory) (d : String) :
    (rowsFor S D d).filter (fun r => r.rowType == "Collection" && r.Database == d)
      = (collNames S D d).map (mkCollRow S D d) := by
  simp only [rowsFor, List.filter_cons]
  have h1 : ((mkDbRow S D d).rowType == "Collection"
      && (mkDbRow S D d).Database == d) = false := by
    simp [mkDbRow]
  rw [if_neg (by simp [h1])]
  apply List.filter_eq_self.mpr
  intro r hr
  rcases List.mem_map.mp hr with ⟨c, _, hc⟩
  subst hc
  simp [mkCollRow]

theorem collFilter_rowsFor_other (S D : Inventory) {d d₀ : String} (h : d₀ ≠ d) :
    (rowsFor S D d₀).filter (fun r => r.rowType == "Collection" && r.Database == d)
      = [] := by
  apply List.filter_eq_nil_iff.mpr
  intro r hr
  simp only [rowsFor, List.mem_cons, List.mem_map] at hr
  rcases hr with hr | ⟨c, _, hc⟩
  · subst hr; simp [mkDbRow]
  · subst hc; simp [mkCollRow, h]

theorem collRowsFor_prepare (S D : Inventory) (d : String)
    (hd : d ∈ allDbNames S D) :
    collRowsFor (prepare_comparison_data S D) d
      = (collNames S D d).map (mkCollRow S D d) := by
  unfold collRowsFor
  rw [prepare_eq_bind, filterFlatMap]
  rw [flatMapSingle _ d (allDbNames S D) (nodup_sortedUnion _ _) hd
    (fun x _ hx => collFilter_rowsFor_other S D hx)]
  exact collFilter_rowsFor_self S D d

theorem dbRows_prepare (S D : Inventory) :
    (prepare_comparison_data S D).filter (fun r => r.rowType == "Database")
      = (allDbNames S D).map (mkDbRow S D) := by
  rw [prepare_eq_bind, filterFlatMap]
  have : (fun d => (rowsFor S D d).filter (fun r => r.rowType == "Database"))
      = fun d => [mkDbRow S D d] := funext (dbFilter_rowsFor S D)
  rw [this]
  induction allDbNames S D with
  | nil => rfl
  | cons x xs ih => simp only [List.flatMap_cons, List.map_cons, ih, List.singleton_append]

theorem dbNamesOf_prepare (S D : Inventory) :
    dbNamesOf (prepare_comparison_data S D) = allDbNames S D := by
  unfold dbNamesOf
  rw [dbRows_prepare, List.map_map]
  have : (ComparisonRow.Database ∘ mkDbRow S D) = id := by
    funext d; rfl
  rw [this, List.map_id]

theorem mkDbRow_Match (S D : Inventory) (d : String) :
    (mkDbRow S D d).Match =
      match lookupKey d S, lookupKey d D with
      | some rs, some rd => if rs.md5 = rd.md5 then "MATCH" else "MISMATCH"
      | _, _ => "MISSING DB" := rfl

theorem mkCollRow_Match (S D : Inventory) (d c : String) :
    (mkCollRow S D d c).Match =
      (if (lookupKey c (collectionsOf S d)).getD "MISSING" = "MISSING" ∨
          (lookupKey c (collectionsOf D d)).getD "MISSING" = "MISSING"
       then "MISSING COLLECTION"
       else if (lookupKey c (collectionsOf S d)).getD "MISSING"
              = (lookupKey c (collectionsOf D d)).getD "MISSING"
       then "MATCH" else "MISMATCH") := rfl

theorem row_shape_of_mem {S D : Inventory} {r : ComparisonRow}
    (hr : r ∈ prepare_comparison_data S D) :
    (r.rowType = "Database" ∨ r.rowType = "Collection") ∧
      (r.Match = "MATCH" ∨ r.Match = "MISMATCH" ∨ r.Match = "MISSING DB" ∨
        r.Match = "MISSING COLLECTION") := by
  rcases mem_prepare_iff.mp hr with ⟨d, _, h | ⟨c, _, h⟩⟩
  · subst h
    refine ⟨Or.inl rfl, ?_⟩
    rw [mkDbRow_Match]
    rcases lookupKey d S with _ | rs <;> rcases lookupKey d D with _ | rd
    · simp
    · simp
    · simp
    · by_cases h : rs.md5 = rd.md5 <;> simp [h]
  · subst h
    refine ⟨Or.inr rfl, ?_⟩
    rw [mkCollRow_Match]
    split_ifs
    · exact Or.inr (Or.inr (Or.inr rfl))
    · exact Or.inl rfl
    · exact Or.inr (Or.inl rfl)

theorem maxCellLen_eq (cells : List String) :
    maxCellLen cells = (cells.map String.length).foldr Nat.max 0 := by
  unfold maxCellLen
  have main : ∀ (l : List String) (i : Nat),
      l.foldl (fun m s => Nat.max m s.length) i
        = Nat.max i ((l.map String.length).foldr Nat.max 0) := by
    intro l
    induction l with
    | nil =>
      intro i
      simp only [List.foldl_nil, List.map_nil, List.foldr_nil, Nat.max_def]
      split_ifs <;> omega
    | cons s ss ih =>
      intro i
      simp only [List.foldl_cons, List.map_cons, List.foldr_cons]
      rw [ih]
      simp only [Nat.max_def]
      split_ifs <;> omega
  rw [main cells 0]
  simp only [Nat.max_def]
  split_ifs <;> omega

theorem prepare_state_eq (S D : Inventory) :
    prepare_state S D = (S, D, prepare_comparison_data S D) := by
  unfold prepare_state prepare_comparison_data
  have main : ∀ (l : List String) (acc : List ComparisonRow),
      l.foldl
        (fun st d =>
          (st.1, st.2.1,
            (collNames st.1 st.2.1 d).foldl
              (fun a c => a ++ [mkCollRow st.1 st.2.1 d c])
              (st.2.2 ++ [mkDbRow st.1 st.2.1 d])))
        (S, D, acc)
        = (S, D,
            l.foldl
              (fun acc₀ d =>
                (collNames S D d).foldl
                  (fun a c => a ++ [mkCollRow S D d c])
                  (acc₀ ++ [mkDbRow S D d]))
              acc) := by
    intro l
    induction l with
    | nil => intro acc; rfl
    | cons d ds ih => intro acc; simp only [List.foldl_cons]; exact ih _
  exact main (allDbNames S D) []

theorem flatMapCongr {α β : Type} {f g : α → List β} :
    ∀ l : List α, (∀ x ∈ l, f x = g x) → l.flatMap f = l.flatMap g := by
  intro l
  induction l with
  | nil => intro _; rfl
  | cons x xs ih =>
    intro h
    simp only [List.flatMap_cons]
    rw [h x (List.mem_cons_self _ _), ih (fun y hy => h y (List.mem_cons_of_mem _ hy))]

/-- C4: the Database-level row names of the reconciliation output are exactly
the union of the two inventories' database names, each exactly once (Nodup),
in ascending lexicographic order (Sorted (· < ·)); the output is the
concatenation of per-database blocks, each a Database row immediately
followed by that database's Collection rows, whose collection names are in
ascending order. -/
theorem c4_union_complete_ordered_grouped (S D : Inventory) :
    (∀ x, x ∈ dbNamesOf (prepare_comparison_data S D) ↔
        x ∈ keysList S ∨ x ∈ keysList D)
    ∧ (dbNamesOf (prepare_comparison_data S D)).Nodup
    ∧ List.Sorted (· < ·) (dbNamesOf (prepare_comparison_data S D))
    ∧ prepare_comparison_data S D
        = (dbNamesOf (prepare_comparison_data S D)).flatMap
            (fun d => mkDbRow S D d :: (collNames S D d).map (mkCollRow S D d))
    ∧ ∀ d, ((collNames S D d).map (mkCollRow S D d)).map ComparisonRow.Collection
          = collNames S D d
        ∧ List.Sorted (· < ·) (collNames S D d) := by
  rw [dbNamesOf_prepare]
  refine ⟨fun x => mem_sortedUnion, nodup_sortedUnion _ _,
    sorted_lt_sortedUnion _ _, prepare_eq_bind S D, fun d => ⟨?_, sorted_lt_sortedUnion _ _⟩⟩
  rw [List.map_map]
  have h : (ComparisonRow.Collection ∘ mkCollRow S D d) = id := funext fun c => rfl
  rw [h, List.map_id]

/-- C6: the reconciliation is deterministic, and moreover depends only on the
dictionary contents of its two inputs: inventories with pointwise-equal
lookups (regardless of association-list order) yield identical output
sequences. -/
theorem c6_deterministic (S S₁ D D₁ : Inventory)
    (hS : ∀ k, lookupKey k S = lookupKey k S₁)
    (hD : ∀ k, lookupKey k D = lookupKey k D₁) :
    prepare_comparison_data S D = prepare_comparison_data S₁ D₁ := by
  have hkeys : ∀ x, x ∈ allDbNames S D ↔ x ∈ allDbNames S₁ D₁ := by
    intro x
    unfold allDbNames
    rw [mem_sortedUnion, mem_sortedUnion,
      ← lookupKey_isSome_iff, ← lookupKey_isSome_iff,
      ← lookupKey_isSome_iff, ← lookupKey_isSome_iff, hS x, hD x]
  have hAll : allDbNames S D = allDbNames S₁ D₁ :=
    eq_of_sorted_lt_of_mem_iff (sorted_lt_sortedUnion _ _)
      (sorted_lt_sortedUnion _ _) hkeys
  rw [prepare_eq_bind, prepare_eq_bind, ← hAll]
  apply flatMapCongr
  intro d _
  have hc : mkCollRow S D d = mkCollRow S₁ D₁ d := by
    funext c
    simp only [mkCollRow, collectionsOf, hS, hD]
  simp only [rowsFor, mkDbRow, collNames, collectionsOf, hS, hD, hc]

/-- Witness for C6: the same dictionary stored in two different association
orders produces the identical output sequence. -/
theorem c6_deterministic_witness :
    prepare_comparison_data invAB invAB = prepare_comparison_data invBA invAB := by
  apply c6_deterministic invAB invBA invAB invAB ?_ (fun k => rfl)
  intro k
  simp only [invAB, invBA, lookupKey]
  by_cases h1 : "alpha" = k
  · by_cases h2 : "beta" = k
    · exact absurd (h1.trans h2.symm) (by decide)
    · simp [h1, h2]
  · by_cases h2 : "beta" = k
    · simp [h1, h2]
    · simp [h1, h2]

theorem collect_side_eq_filterMap (hashOf : String → Option DatabaseRecord)
    (dbs : List String) :
    collect_side hashOf dbs
      = dbs.filterMap (fun d => (hashOf d).map (fun r => (d, r))) := by
  unfold collect_side
  have main : ∀ (l : List String) (init : Inventory),
      l.foldl
        (fun acc d =>
          match hashOf d with
          | some r => acc ++ [(d, r)]
          | none => acc)
        init
        = init ++ l.filterMap (fun d => (hashOf d).map (fun r => (d, r))) := by
    intro l
    induction l with
    | nil => intro init; simp
    | cons d ds ih =>
      intro init
      cases hd : hashOf d with
      | none =>
        simp only [List.foldl_cons, List.filterMap_cons, hd, Option.map_none']
        exact ih init
      | some r =>
        simp only [List.foldl_cons, List.filterMap_cons, hd, Option.map_some']
        rw [ih]
        simp
  simpa using main dbs []

/-- C8: a database whose hash command fails (`hashOf d = none`) is omitted
entirely from the collected inventory, and collection continues for the
remaining databases: the inventory is exactly the successful databases in
scan order, with no error-marker entries. -/
theorem c8_failed_databases_omitted (hashOf : String → Option DatabaseRecord)
    (dbs : List String) :
    collect_side hashOf dbs
      = dbs.filterMap (fun d => (hashOf d).map (fun r => (d, r)))
    ∧ keysList (collect_side hashOf dbs)
      = dbs.filter (fun d => (hashOf d).isSome) := by
  refine ⟨collect_side_eq_filterMap hashOf dbs, ?_⟩
  rw [collect_side_eq_filterMap]
  induction dbs with
  | nil => rfl
  | cons d ds ih =>
    cases hd : hashOf d with
    | none =>
      simp only [List.filterMap_cons, List.filter_cons, hd, Option.map_none',
        Option.isSome_none, Bool.false_eq_true, if_false]
      exact ih
    | some r =>
      simp only [List.filterMap_cons, List.filter_cons, hd, Option.map_some',
        Option.isSome_some, if_true]
      simpa [keysList] using ih

/-- C9: the reconciliation does not mutate its inputs: threading the two
inventories through the loop state, both emerge unchanged, and the rows
produced are those of `prepare_comparison_data`. -/
theorem c9_inputs_unchanged (S D : Inventory) :
    (prepare_state S D).1 = S ∧ (prepare_state S D).2.1 = D ∧
      (prepare_state S D).2.2 = prepare_comparison_data S D := by
  rw [prepare_state_eq]
  exact ⟨rfl, rfl, rfl⟩

theorem row_ok_iff (r : ComparisonRow)
    (hty : r.rowType = "Database" ∨ r.rowType = "Collection")
    (hm : r.Match = "MATCH" ∨ r.Match = "MISMATCH" ∨ r.Match = "MISSING DB" ∨
      r.Match = "MISSING COLLECTION") :
    (((r.rowType == "Database" && strContains r.Match "MISMATCH") = false)
      ∧ ((r.rowType == "Collection" && strContains r.Match "MISMATCH") = false)
      ∧ ((r.rowType == "Database" && strContains r.Match "MISSING") = false)
      ∧ ((r.rowType == "Collection" && strContains r.Match "MISSING") = false))
    ↔ (r.Match ≠ "MISMATCH" ∧ r.Match ≠ "MISSING DB" ∧
        r.Match ≠ "MISSING COLLECTION") := by
  rcases hty with hty | hty <;> rcases hm with hm | hm | hm | hm <;>
    rw [hty, hm] <;> decide

/-- C5: the Summary's overallStatus, recomputed from the row sequence alone,
is the literal string PASS iff no row of the reconciliation output (at either
level) carries a MISMATCH or a MISSING classification. -/
theorem c5_summary_pass_iff_clean (S D : Inventory) :
    overallStatus (prepare_comparison_data S D) = "PASS" ↔
      ∀ r ∈ prepare_comparison_data S D,
        r.Match ≠ "MISMATCH" ∧ r.Match ≠ "MISSING DB" ∧
          r.Match ≠ "MISSING COLLECTION" := by
  have hsum :
      (db_mismatches (prepare_comparison_data S D)
        + coll_mismatches (prepare_comparison_data S D)
        + missing_dbs (prepare_comparison_data S D)
        + missing_colls (prepare_comparison_data S D) = 0)
      ↔ ∀ r ∈ prepare_comparison_data S D,
          r.Match ≠ "MISMATCH" ∧ r.Match ≠ "MISSING DB" ∧
            r.Match ≠ "MISSING COLLECTION" := by
    unfold db_mismatches coll_mismatches missing_dbs missing_colls
    rw [Nat.add_eq_zero, Nat.add_eq_zero, Nat.add_eq_zero]
    simp only [List.length_eq_zero, List.filter_eq_nil_iff, Bool.not_eq_true]
    constructor
    · rintro ⟨⟨⟨h1, h2⟩, h3⟩, h4⟩ r hr
      obtain ⟨hty, hm⟩ := row_shape_of_mem hr
      exact (row_ok_iff r hty hm).mp ⟨h1 r hr, h2 r hr, h3 r hr, h4 r hr⟩
    · intro h
      have key : ∀ r ∈ prepare_comparison_data S D,
          ((r.rowType == "Database" && strContains r.Match "MISMATCH") = false)
          ∧ ((r.rowType == "Collection" && strContains r.Match "MISMATCH") = false)
          ∧ ((r.rowType == "Database" && strContains r.Match "MISSING") = false)
          ∧ ((r.rowType == "Collection" && strContains r.Match "MISSING") = false) := by
        intro r hr
        obtain ⟨hty, hm⟩ := row_shape_of_mem hr
        exact (row_ok_iff r hty hm).mpr (h r hr)
      exact ⟨⟨⟨fun r hr => (key r hr).1, fun r hr => (key r hr).2.1⟩,
        fun r hr => (key r hr).2.2.1⟩, fun r hr => (key r hr).2.2.2⟩
  unfold overallStatus
  by_cases h0 : db_mismatches (prepare_comparison_data S D)
      + coll_mismatches (prepare_comparison_data S D)
      + missing_dbs (prepare_comparison_data S D)
      + missing_colls (prepare_comparison_data S D) = 0
  · rw [if_pos h0]
    exact ⟨fun _ => hsum.mp h0, fun _ => rfl⟩
  · rw [if_neg h0]
    constructor
    · intro hFP
      exact absurd hFP (by decide)
    · intro hall
      exact absurd (hsum.mpr hall) h0

/-- C1 counterexample: with database "db" present only in the source (one
collection), the output carries a Collection-level row for it, refuting the
claim that a one-sided database gets zero Collection-level rows. -/
theorem c1_counterexample : ¬ oneSidedNoCollRowsClaim := by
  intro h
  have h0 := h invOne [] "db" (Or.inl ⟨by decide, by decide⟩)
  exact absurd h0 (by decide)

/-- C1 amended: for a database `d` present in exactly one inventory — either
in the source with the destination lacking it, or in the destination with the
source lacking it — Collection-level rows ARE emitted for `d`: exactly one
per collection of the present side's record `r`, in ascending name order,
each exactly once, and every such row is classified MISSING COLLECTION. -/
theorem c1_amended_one_sided_coll_rows (S D : Inventory) (d : String)
    (r : DatabaseRecord)
    (h1 : (lookupKey d S = some r ∧ lookupKey d D = none) ∨
      (lookupKey d S = none ∧ lookupKey d D = some r)) :
    collRowsFor (prepare_comparison_data S D) d
      = (collNames S D d).map (mkCollRow S D d)
    ∧ (∀ x, x ∈ collNames S D d ↔ x ∈ keysList r.collections)
    ∧ (collNames S D d).Nodup
    ∧ List.Sorted (· < ·) (collNames S D d)
    ∧ ∀ row ∈ collRowsFor (prepare_comparison_data S D) d,
        row.Match = "MISSING COLLECTION" := by
  have key : (collectionsOf S d = r.collections ∧ collectionsOf D d = []) ∨
      (collectionsOf S d = [] ∧ collectionsOf D d = r.collections) := by
    rcases h1 with ⟨hS, hD⟩ | ⟨hS, hD⟩
    · exact Or.inl ⟨by simp [collectionsOf, hS], by simp [collectionsOf, hD]⟩
    · exact Or.inr ⟨by simp [collectionsOf, hS], by simp [collectionsOf, hD]⟩
  have hd : d ∈ allDbNames S D := by
    unfold allDbNames
    rcases h1 with ⟨hS, _⟩ | ⟨_, hD⟩
    · exact mem_sortedUnion.mpr
        (Or.inl ((lookupKey_isSome_iff d S).mp (by rw [hS]; rfl)))
    · exact mem_sortedUnion.mpr
        (Or.inr ((lookupKey_isSome_iff d D).mp (by rw [hD]; rfl)))
  have hmem : ∀ x, x ∈ collNames S D d ↔ x ∈ keysList r.collections := by
    intro x
    unfold collNames
    rcases key with ⟨hcS, hcD⟩ | ⟨hcS, hcD⟩ <;>
      rw [hcS, hcD, mem_sortedUnion] <;> simp [keysList]
  refine ⟨collRowsFor_prepare S D d hd, hmem, nodup_sortedUnion _ _,
    sorted_lt_sortedUnion _ _, ?_⟩
  intro row hrow
  rw [collRowsFor_prepare S D d hd] at hrow
  rcases List.mem_map.mp hrow with ⟨c, _, hc⟩
  subst hc
  rw [mkCollRow_Match]
  rcases key with ⟨hcS, hcD⟩ | ⟨hcS, hcD⟩ <;> rw [hcS, hcD] <;> simp [lookupKey]

/-- Witness for the amended C1 at a concrete destination-only database. -/
theorem c1_amended_witness :
    collRowsFor (prepare_comparison_data [] invOne) "db"
      = (collNames [] invOne "db").map (mkCollRow [] invOne "db") :=
  (c1_amended_one_sided_coll_rows [] invOne "db" ⟨"h1", [("c", "h1c")], "X", 5⟩
    (Or.inr ⟨by decide, by decide⟩)).1

/-- C2 counterexample: with both connections fine and the artifact written,
a run whose report has overallStatus FAIL nevertheless exits zero, refuting
the claim that exit 0 implies PASS. -/
theorem c2_counterexample :
    ¬ exitZeroOnlyOnPassClaim ∧
      overallStatus (prepare_comparison_data invX invY) = "FAIL" ∧
      exitCode (run_comparison true invX invY true) = 0 := by
  refine ⟨?_, by decide, by decide⟩
  intro h
  have h0 := (h true invX invY true (by decide)).2
  exact absurd h0 (by decide)

/-- C2 amended: the exit code is zero iff the operational pipeline succeeded
(connection OK, at least one inventory nonempty, artifact written) — it is
independent of the report's overallStatus, so a FAIL report still exits 0. -/
theorem c2_amended_exit_iff_operational (connectOk : Bool) (S D : Inventory)
    (writeOk : Bool) :
    exitCode (run_comparison connectOk S D writeOk) = 0 ↔
      (connectOk = true ∧ ¬(S = [] ∧ D = []) ∧ writeOk = true) := by
  unfold exitCode run_comparison
  rcases connectOk with _ | _
  · simp
  · by_cases hSD : S = [] ∧ D = []
    · simp [hSD]
    · rcases writeOk with _ | _ <;> simp [hSD]

theorem digestOf_mkDbRow (inv S D : Inventory) (d : String) :
    digestOf inv (mkDbRow S D d) = (lookupKey d inv).map DatabaseRecord.md5 := by
  simp [digestOf, mkDbRow]

theorem digestOf_mkCollRow (inv S D : Inventory) (d c : String) :
    digestOf inv (mkCollRow S D d c) = lookupKey c (collectionsOf inv d) := by
  simp [digestOf, mkCollRow]

theorem noSentinel_lookup {inv : Inventory} (h : noSentinelDigest inv)
    {d c a : String} (hl : lookupKey c (collectionsOf inv d) = some a) :
    a ≠ "MISSING" := by
  unfold collectionsOf at hl
  cases hrec : lookupKey d inv with
  | none => rw [hrec] at hl; simp [lookupKey] at hl
  | some rec₀ =>
    rw [hrec] at hl
    simp only [Option.map_some', Option.getD_some] at hl
    exact h (d, rec₀) (lookupKey_eq_some_mem hrec) (c, a) (lookupKey_eq_some_mem hl)

/-- C3 counterexample: a collection present in both inventories whose digest
is the literal string MISSING on both sides is classified MISSING COLLECTION
although both digests are present and equal — the classification rule as
claimed (absence read by key presence) is refuted. -/
theorem c3_counterexample : ¬ classificationClaim := by
  intro h
  have hmem : mkCollRow invMS invMD "db" "c" ∈ prepare_comparison_data invMS invMD := by
    decide
  have h1 := (h invMS invMD (mkCollRow invMS invMD "db" "c") hmem).1
  have hmatch : (mkCollRow invMS invMD "db" "c").Match = "MATCH" :=
    h1.mpr ⟨"MISSING", "MISSING", by decide, by decide, rfl⟩
  exact absurd hmatch (by decide)

/-- C3 amended: provided no stored collection digest equals the sentinel
string MISSING, every row of the reconciliation output is classified
correctly: MATCH iff both digests present (by key) and string-equal,
MISMATCH iff both present and unequal, MISSING DB / MISSING COLLECTION iff
at least one digest is absent. -/
theorem c3_amended_classification (S D : Inventory)
    (hS : noSentinelDigest S) (hD : noSentinelDigest D) :
    ∀ r ∈ prepare_comparison_data S D, classificationCorrectAt S D r := by
  intro r hr
  rcases mem_prepare_iff.mp hr with ⟨d, _, hdb | ⟨c, _, hcoll⟩⟩
  · subst hdb
    unfold classificationCorrectAt
    rw [mkDbRow_Match, digestOf_mkDbRow, digestOf_mkDbRow]
    rcases lookupKey d S with _ | rs <;> rcases lookupKey d D with _ | rd
    · simp
      decide
    · simp
      decide
    · simp
      decide
    · by_cases he : rs.md5 = rd.md5 <;> simp [he] <;> decide
  · subst hcoll
    unfold classificationCorrectAt
    rw [mkCollRow_Match, digestOf_mkCollRow, digestOf_mkCollRow]
    rcases hA : lookupKey c (collectionsOf S d) with _ | a <;>
      rcases hB : lookupKey c (collectionsOf D d) with _ | b
    · simp
    · simp
    · simp
    · have ha := noSentinel_lookup hS hA
      have hb := noSentinel_lookup hD hB
      by_cases he : a = b <;> simp [ha, hb, he]

/-- Witness for the amended C3 at a concrete sentinel-free inventory pair. -/
theorem c3_amended_witness :
    classificationCorrectAt invOne invOne (mkDbRow invOne invOne "db") :=
  c3_amended_classification invOne invOne
    (by unfold noSentinelDigest; decide) (by unfold noSentinelDigest; decide)
    (mkDbRow invOne invOne "db")
    (mem_prepare_iff.mpr ⟨"db", by decide, Or.inl rfl⟩)

/-- C7 counterexample: the Summary sheet's column width is assigned as
longest cell length + 2 with NO cap (source line 340), unlike the primary
sheet (line 292).  A Summary whose Generated-on cell is 69 characters long is
assigned width 71, while the capped formula of the claim yields 50. -/
theorem c7_counterexample : ¬ cappedWidthClaim := by
  intro h
  have hts := (h []
    "2025-07-24 12:00:00 +0000 UTC on host db-primary-01.example.internal").2.2
  exact absurd hts (by decide)

/-- C7 amended: the capped formula min(longest + 2, 50) governs every column
of the primary "Hash Comparison" view, computed independently per column;
the Summary view's columns are instead sized longest + 2 with no cap. -/
theorem c7_amended_widths (rows : List ComparisonRow) (genTime : String) :
    (∀ col ∈ mainColumns rows, mainColWidth col
        = Nat.min ((col.map String.length).foldr Nat.max 0 + 2) 50)
    ∧ summaryColWidth summaryColA
        = (summaryColA.map String.length).foldr Nat.max 0 + 2
    ∧ summaryColWidth (summaryColB genTime rows)
        = ((summaryColB genTime rows).map String.length).foldr Nat.max 0 + 2 := by
  refine ⟨fun col _ => ?_, ?_, ?_⟩
  · unfold mainColWidth
    rw [maxCellLen_eq]
  · unfold summaryColWidth
    rw [maxCellLen_eq]
  · unfold summaryColWidth
    rw [maxCellLen_eq]

/-- Witness for the amended C7 on a one-row report. -/
theorem c7_amended_witness :
    mainColWidth ("Type" :: [fillerRow].map ComparisonRow.rowType)
      = Nat.min ((("Type" :: [fillerRow].map ComparisonRow.rowType).map
          String.length).foldr Nat.max 0 + 2) 50 :=
  (c7_amended_widths [fillerRow] "2025-07-24 12:00:00").1
    ("Type" :: [fillerRow].map ComparisonRow.rowType)
    (by unfold mainColumns; exact List.mem_cons_self _ _)

/-- C10: a collection present in both inventories whose stored digest is
literally the string MISSING on either side is classified MISSING COLLECTION
rather than MATCH or MISMATCH — absence is detected by comparing the digest
value against the sentinel string, not by key presence. -/
theorem c10_sentinel_digest_misclassified (S D : Inventory) (d c : String)
    (rs rd : DatabaseRecord)
    (hS : lookupKey d S = some rs) (hD : lookupKey d D = some rd)
    (hsc : lookupKey c rs.collections ≠ none)
    (_hdc : lookupKey c rd.collections ≠ none)
    (hsent : lookupKey c rs.collections = some "MISSING" ∨
      lookupKey c rd.collections = some "MISSING") :
    mkCollRow S D d c ∈ prepare_comparison_data S D
    ∧ (mkCollRow S D d c).Match = "MISSING COLLECTION"
    ∧ (mkCollRow S D d c).Match ≠ "MATCH"
    ∧ (mkCollRow S D d c).Match ≠ "MISMATCH" := by
  have hcS : collectionsOf S d = rs.collections := by simp [collectionsOf, hS]
  have hcD : collectionsOf D d = rd.collections := by simp [collectionsOf, hD]
  have hmatch : (mkCollRow S D d c).Match = "MISSING COLLECTION" := by
    rw [mkCollRow_Match, hcS, hcD]
    rcases hsent with hs0 | hs0 <;> rw [hs0] <;> simp
  refine ⟨?_, hmatch, ?_, ?_⟩
  · apply mem_prepare_iff.mpr
    refine ⟨d, ?_, Or.inr ⟨c, ?_, rfl⟩⟩
    · unfold allDbNames
      exact mem_sortedUnion.mpr
        (Or.inl ((lookupKey_isSome_iff d S).mp (by rw [hS]; rfl)))
    · unfold collNames
      rw [hcS]
      apply mem_sortedUnion.mpr
      apply Or.inl
      apply (lookupKey_isSome_iff c rs.collections).mp
      rcases h0 : lookupKey c rs.collections with _ | v
      · exact absurd h0 hsc
      · rfl
  · rw [hmatch]; decide
  · rw [hmatch]; decide

/-- Witness for C10 at concrete inventories whose shared collection digest is
the literal string MISSING on both sides. -/
theorem c10_witness :
    mkCollRow invMS invMD "db" "c" ∈ prepare_comparison_data invMS invMD
    ∧ (mkCollRow invMS invMD "db" "c").Match = "MISSING COLLECTION"
    ∧ (mkCollRow invMS invMD "db" "c").Match ≠ "MATCH"
    ∧ (mkCollRow invMS invMD "db" "c").Match ≠ "MISMATCH" :=
  c10_sentinel_digest_misclassified invMS invMD "db" "c"
    ⟨"h1", [("c", "MISSING")], "X", 1⟩ ⟨"h2", [("c", "MISSING")], "X", 1⟩
    (by decide) (by decide) (by decide) (by decide) (Or.inl (by decide))
